import Mathlib

/-!
Shallow embedding of the KeplerCoder/NeuralNetwork training core
(`machine_learning.py`, `data.py`) and verification of the specification
claims about it.

Python floats are modelled as rationals (`ℚ`); the claims under
verification are about control flow and exact algebraic update rules, not
floating-point rounding.  Python code that can raise at runtime
(division/modulo by zero, fault propagation out of the training loop) is
modelled with `Option`/`Except`: `none`/`Except.error` marks the raising
executions.  In-place mutation of a layer's `weights`/`bias`/`input_dataset`
is modelled by explicit state passing on a `Layer` structure.
-/

namespace NeuralNetwork

/-- Model of one layer's mutable state, from the layer objects consumed by
`MachineLearning` (`layer.weights`, `layer.bias`, `layer.input_dataset`). -/
structure Layer where
  weights : List (List ℚ)
  bias : ℚ
  input_dataset : List ℚ
deriving DecidableEq

/-- From `MachineLearning._calculate_error` (machine_learning.py, lines 23-32):
`return ((predicted - target) / target) * 100`.  Python raises
`ZeroDivisionError` when `target == 0`, modelled as `none`. -/
def _calculate_error (predicted target : ℚ) : Option ℚ :=
  if target = 0 then none
  else some (((predicted - target) / target) * 100)

/-- From `MachineLearning._get_lasso_regularization` (machine_learning.py,
lines 34-46): `return regularization * (1 if weights[i][j] > 0 else -1)`.
All call sites index in range; out-of-range reads default to `0`. -/
def _get_lasso_regularization (regularization : ℚ) (weights : List (List ℚ)) (i j : ℕ) : ℚ :=
  regularization * (if (weights.getD i []).getD j 0 > 0 then 1 else -1)

/-- From `MachineLearning._get_ridge_regularization` (machine_learning.py,
lines 48-60): `return regularization * weights[i][j]`. -/
def _get_ridge_regularization (regularization : ℚ) (weights : List (List ℚ)) (i j : ℕ) : ℚ :=
  regularization * (weights.getD i []).getD j 0

/-- From `MachineLearning._calculate_gradient_descent` (machine_learning.py,
lines 62-77): `weights[i][j] -= learning_rate * gradient * input_dataset[j]`,
returning the mutated matrix. -/
def _calculate_gradient_descent (input_dataset : List ℚ) (learning_rate gradient : ℚ)
    (weights : List (List ℚ)) (i j : ℕ) : List (List ℚ) :=
  weights.set i ((weights.getD i []).set j
    ((weights.getD i []).getD j 0 - learning_rate * gradient * input_dataset.getD j 0))

/-- From `MachineLearning._calculate_learning_decay` (machine_learning.py,
lines 79-92): `if epoch % (epochs // 4) == 0 and epoch != 0: learning_rate *=
learning_decay; return learning_rate`.  Python evaluates
`epoch % (epochs // 4)` first, so when `epochs // 4 == 0` the call raises
`ZeroDivisionError` for every `epoch`; that execution is modelled as `none`. -/
def _calculate_learning_decay (epoch epochs : ℕ) (learning_rate learning_decay : ℚ) : Option ℚ :=
  if epochs / 4 = 0 then none
  else if epoch % (epochs / 4) = 0 ∧ epoch ≠ 0 then some (learning_rate * learning_decay)
  else some learning_rate

/-- Body of the double loop of `MachineLearning.update_weights`
(machine_learning.py, lines 108-121) for one index pair `(i, j)`:
accumulate the enabled regularization terms, apply
`_calculate_gradient_descent` with `gradient + regularization_term`, and —
when neither flag is enabled — apply `_calculate_gradient_descent` with the
raw `gradient` a second time. -/
def update_weights_entry (input_dataset : List ℚ) (gradient : ℚ)
    (lasso_regularization ridge_regularization : Bool)
    (learning_rate regularization : ℚ) (weights : List (List ℚ)) (i j : ℕ) : List (List ℚ) :=
  let regularization_term : ℚ :=
    (if lasso_regularization then _get_lasso_regularization regularization weights i j else 0) +
    (if ridge_regularization then _get_ridge_regularization regularization weights i j else 0)
  let weights1 := _calculate_gradient_descent input_dataset learning_rate
    (gradient + regularization_term) weights i j
  if lasso_regularization = false ∧ ridge_regularization = false then
    _calculate_gradient_descent input_dataset learning_rate gradient weights1 i j
  else weights1

/-- The double loop of `MachineLearning.update_weights` (machine_learning.py,
lines 108-121): `for i in range(len(layer.weights)): for j in
range(len(layer.weights[i])): ...`, with the matrix threaded through the
iterations.  The inner range reads the row length from the current matrix,
exactly as Python re-evaluates `len(layer.weights[i])` on entry to row `i`. -/
def update_weights_matrix (input_dataset : List ℚ) (gradient : ℚ)
    (lasso_regularization ridge_regularization : Bool)
    (learning_rate regularization : ℚ) (weights : List (List ℚ)) : List (List ℚ) :=
  (List.range weights.length).foldl (fun acc i =>
    (List.range ((acc.getD i []).length)).foldl
      (fun acc2 j => update_weights_entry input_dataset gradient
        lasso_regularization ridge_regularization learning_rate regularization acc2 i j)
      acc) weights

/-- From `MachineLearning.update_weights` (machine_learning.py, lines
94-122): updates every weight entry through the double loop and then
`layer.bias -= learning_rate * gradient`. -/
def update_weights (layer : Layer) (gradient : ℚ)
    (lasso_regularization ridge_regularization : Bool)
    (learning_rate regularization : ℚ) : Layer :=
  { layer with
      weights := update_weights_matrix layer.input_dataset gradient
        lasso_regularization ridge_regularization learning_rate regularization layer.weights
      bias := layer.bias - learning_rate * gradient }

/-- Closed form of what one execution of the `update_weights` loop body does
to the single weight entry it touches: with `w` the current entry value and
`j` its column, the entry becomes `w - lr * (gradient + rt) * input[j]`
where `rt` sums the enabled regularization terms, and — when neither flag is
enabled — the raw gradient step is subtracted a second time. -/
def entryNew (input_dataset : List ℚ) (gradient : ℚ)
    (lasso_regularization ridge_regularization : Bool)
    (learning_rate regularization : ℚ) (w : ℚ) (j : ℕ) : ℚ :=
  let rt : ℚ :=
    (if lasso_regularization then regularization * (if w > 0 then 1 else -1) else 0) +
    (if ridge_regularization then regularization * w else 0)
  let w1 := w - learning_rate * (gradient + rt) * input_dataset.getD j 0
  if lasso_regularization = false ∧ ridge_regularization = false then
    w1 - learning_rate * gradient * input_dataset.getD j 0
  else w1

/-- Map over a list of weights together with the running column index. -/
def mapWithIndex (φ : ℚ → ℕ → ℚ) : List ℚ → ℕ → List ℚ
  | [], _ => []
  | w :: ws, j => φ w j :: mapWithIndex φ ws (j + 1)

/-- One step of the row-level rewriting of the inner `update_weights` loop. -/
def rowStep (φ : ℚ → ℕ → ℚ) (r : List ℚ) (j : ℕ) : List ℚ :=
  r.set j (φ (r.getD j 0) j)

lemma length_mapWithIndex (φ : ℚ → ℕ → ℚ) :
    ∀ (l : List ℚ) (j : ℕ), (mapWithIndex φ l j).length = l.length := by
  intro l
  induction l with
  | nil => intro j; rfl
  | cons w ws ih => intro j; simp [mapWithIndex, ih]

lemma mapWithIndex_append (φ : ℚ → ℕ → ℚ) :
    ∀ (xs ys : List ℚ) (j : ℕ),
      mapWithIndex φ (xs ++ ys) j = mapWithIndex φ xs j ++ mapWithIndex φ ys (j + xs.length) := by
  intro xs
  induction xs with
  | nil => intro ys j; simp [mapWithIndex]
  | cons x xs ih =>
    intro ys j
    have h1 : mapWithIndex φ ((x :: xs) ++ ys) j = φ x j :: mapWithIndex φ (xs ++ ys) (j + 1) :=
      rfl
    rw [h1, ih]
    rw [show j + 1 + xs.length = j + (x :: xs).length from by simp; omega]
    rfl

lemma getD_mapWithIndex (φ : ℚ → ℕ → ℚ) :
    ∀ (l : List ℚ) (j0 k : ℕ), k < l.length →
      (mapWithIndex φ l j0).getD k 0 = φ (l.getD k 0) (j0 + k) := by
  intro l
  induction l with
  | nil => intro j0 k h; simp at h
  | cons w ws ih =>
    intro j0 k h
    cases k with
    | zero => simp [mapWithIndex]
    | succ k =>
      simp only [mapWithIndex, List.getD_cons_succ]
      rw [ih (j0 + 1) k (by simpa using h)]
      rw [show j0 + 1 + k = j0 + (k + 1) by omega]

lemma getD_set_self {α : Type} (l : List α) (i : ℕ) (a d : α) (h : i < l.length) :
    (l.set i a).getD i d = a := by
  rw [List.getD_eq_getElem?_getD, List.getElem?_set_eq_of_lt a h]
  rfl

lemma set_getD_self {α : Type} (l : List α) (i : ℕ) (d : α) (h : i < l.length) :
    l.set i (l.getD i d) = l := by
  apply List.ext_getElem?
  intro n
  by_cases hn : i = n
  · subst hn
    rw [List.getElem?_set_eq_of_lt _ h, List.getD_eq_getElem?_getD,
      List.getElem?_eq_getElem h]
    rfl
  · rw [List.getElem?_set_ne hn]

/-- One execution of the `update_weights` loop body rewrites exactly the
entry `(i, j)` to its `entryNew` closed form. -/
lemma update_weights_entry_eq (input : List ℚ) (g : ℚ) (la ri : Bool) (lr reg : ℚ)
    (weights : List (List ℚ)) (i j : ℕ) (hi : i < weights.length)
    (hj : j < (weights.getD i []).length) :
    update_weights_entry input g la ri lr reg weights i j =
      weights.set i ((weights.getD i []).set j
        (entryNew input g la ri lr reg ((weights.getD i []).getD j 0) j)) := by
  cases la with
  | true =>
    simp only [update_weights_entry, entryNew, _calculate_gradient_descent,
      _get_lasso_regularization, _get_ridge_regularization]
    simp
  | false =>
    cases ri with
    | true =>
      simp only [update_weights_entry, entryNew, _calculate_gradient_descent,
        _get_lasso_regularization, _get_ridge_regularization]
      simp
    | false =>
      simp only [update_weights_entry, entryNew, _calculate_gradient_descent,
        _get_lasso_regularization, _get_ridge_regularization]
      have hj' : j < (weights[i]?.getD []).length := by
        simpa [List.getD_eq_getElem?_getD] using hj
      have hj2 : j < weights[i].length := by
        have hsome : weights[i]?.getD [] = weights[i] := by
          rw [List.getElem?_eq_getElem hi]
          rfl
        rwa [hsome] at hj'
      simp [List.getElem?_set_eq_of_lt, hi, hj', hj2, List.set_set]

/-- The inner `for j in range(len(layer.weights[i]))` loop rewrites row `i`
pointwise and leaves every other row untouched. -/
lemma inner_foldl_eq (input : List ℚ) (g : ℚ) (la ri : Bool) (lr reg : ℚ) (i : ℕ)
    (L : List ℕ) :
    ∀ acc : List (List ℚ), i < acc.length → (∀ j ∈ L, j < (acc.getD i []).length) →
      L.foldl (fun a j => update_weights_entry input g la ri lr reg a i j) acc =
        acc.set i (L.foldl (rowStep (entryNew input g la ri lr reg)) (acc.getD i [])) := by
  induction L with
  | nil =>
    intro acc hi _
    simp only [List.foldl_nil]
    rw [set_getD_self _ _ _ hi]
  | cons j L ih =>
    intro acc hi hL
    simp only [List.foldl_cons]
    rw [update_weights_entry_eq input g la ri lr reg acc i j hi
      (hL j (List.mem_cons_self j L))]
    rw [ih _ (by simpa using hi) ?_]
    · rw [getD_set_self _ _ _ _ hi, List.set_set]
      rfl
    · intro j' hj'
      rw [getD_set_self _ _ _ _ hi, List.length_set]
      exact hL j' (List.mem_cons_of_mem _ hj')

/-- Folding `rowStep` over all column indices maps every entry of the row
through `φ`, reading the original value of each entry. -/
lemma row_foldl_eq (φ : ℚ → ℕ → ℚ) (row : List ℚ) :
    ∀ n, n ≤ row.length →
      (List.range n).foldl (rowStep φ) row = mapWithIndex φ (row.take n) 0 ++ row.drop n := by
  intro n
  induction n with
  | zero => intro _; simp [mapWithIndex]
  | succ n ih =>
    intro hn
    have hn' : n < row.length := by omega
    have hlen : (mapWithIndex φ (row.take n) 0).length = n := by
      rw [length_mapWithIndex, List.length_take]
      omega
    rw [List.range_succ, List.foldl_append, ih (by omega), List.foldl_cons, List.foldl_nil]
    rw [rowStep]
    rw [List.getD_append_right _ _ _ _ (le_of_eq hlen), hlen, Nat.sub_self]
    rw [List.set_append_right _ _ (le_of_eq hlen), hlen, Nat.sub_self]
    rw [List.drop_eq_getElem_cons hn']
    rw [List.take_succ, List.getElem?_eq_getElem hn']
    simp only [Option.toList_some]
    rw [mapWithIndex_append φ _ _ 0, List.append_assoc]
    congr 1
    have htake : (row.take n).length = n := by rw [List.length_take]; omega
    rw [htake, Nat.zero_add]
    simp only [mapWithIndex, List.getD_cons_zero, List.set_cons_zero]
    rfl

/-- The outer `for i in range(len(layer.weights))` loop maps every row of
the matrix through the pointwise `entryNew` rewrite. -/
lemma outer_foldl_eq (input : List ℚ) (g : ℚ) (la ri : Bool) (lr reg : ℚ)
    (ws : List (List ℚ)) :
    ∀ n, n ≤ ws.length →
      (List.range n).foldl
        (fun acc i => (List.range ((acc.getD i []).length)).foldl
          (fun acc2 j => update_weights_entry input g la ri lr reg acc2 i j) acc) ws =
      (ws.take n).map (fun row => mapWithIndex (entryNew input g la ri lr reg) row 0) ++
        ws.drop n := by
  intro n
  induction n with
  | zero => intro _; simp
  | succ n ih =>
    intro hn
    have hn' : n < ws.length := by omega
    have hlen : ((ws.take n).map
        (fun row => mapWithIndex (entryNew input g la ri lr reg) row 0)).length = n := by
      rw [List.length_map, List.length_take]
      omega
    rw [List.range_succ, List.foldl_append, ih (by omega), List.foldl_cons, List.foldl_nil]
    have hT : (((ws.take n).map
          (fun row => mapWithIndex (entryNew input g la ri lr reg) row 0)) ++
        ws.drop n).getD n [] = ws.getD n [] := by
      rw [List.getD_append_right _ _ _ _ (le_of_eq hlen), hlen, Nat.sub_self]
      rw [List.drop_eq_getElem_cons hn', List.getD_cons_zero]
      rw [List.getD_eq_getElem?_getD, List.getElem?_eq_getElem hn']
      rfl
    have hiT : n < (((ws.take n).map
          (fun row => mapWithIndex (entryNew input g la ri lr reg) row 0)) ++
        ws.drop n).length := by
      rw [List.length_append, hlen, List.length_drop]
      omega
    rw [inner_foldl_eq input g la ri lr reg n _ _ hiT
      (by intro j hj; exact List.mem_range.1 hj)]
    rw [hT, row_foldl_eq _ _ _ le_rfl, List.take_length, List.drop_length,
      List.append_nil]
    rw [List.set_append_right _ _ (le_of_eq hlen), hlen, Nat.sub_self]
    rw [List.drop_eq_getElem_cons hn', List.set_cons_zero]
    rw [List.take_succ, List.getElem?_eq_getElem hn']
    simp only [Option.toList_some, List.map_append, List.append_assoc]
    congr 2
    rw [List.getD_eq_getElem?_getD, List.getElem?_eq_getElem hn']
    rfl

/-- `update_weights_matrix` maps every entry `(i, j)` of the matrix through
the `entryNew` closed form, reading each entry's original value. -/
theorem update_weights_matrix_eq (input : List ℚ) (g : ℚ) (la ri : Bool) (lr reg : ℚ)
    (ws : List (List ℚ)) :
    update_weights_matrix input g la ri lr reg ws =
      ws.map (fun row => mapWithIndex (entryNew input g la ri lr reg) row 0) := by
  rw [update_weights_matrix, outer_foldl_eq input g la ri lr reg ws ws.length le_rfl,
    List.take_length, List.drop_length, List.append_nil]

end NeuralNetwork

namespace NeuralNetwork

/-- C7: for every predicted value and nonzero target, `_calculate_error`
returns `((predicted - target) / target) * 100`; it faults (models Python's
`ZeroDivisionError` as `none`) exactly when the target is `0`; and on the
spec scenario `calculate_error(110, 100)` it returns `10`. -/
theorem c7_calculate_error_spec (predicted target : ℚ) (h : target ≠ 0) :
    _calculate_error predicted target = some (((predicted - target) / target) * 100) ∧
    _calculate_error predicted 0 = none ∧
    _calculate_error 110 100 = some 10 := by
  refine ⟨?_, ?_, ?_⟩
  · simp [_calculate_error, h]
  · simp [_calculate_error]
  · norm_num [_calculate_error]

/-- Witness for C7 at `predicted = 110`, `target = 100`. -/
theorem c7_calculate_error_witness :
    _calculate_error 110 100 = some (((110 - 100) / 100) * 100) ∧
    _calculate_error 110 0 = none ∧
    _calculate_error 110 100 = some 10 :=
  c7_calculate_error_spec 110 100 (by norm_num)

/-- C2 (code bug evaluation): with `epochs = 3` (so `epochs // 4 == 0`) the
learning-decay computation faults — Python evaluates `epoch % 0` and raises
`ZeroDivisionError` (modelled `none`) — instead of returning the learning
rate unchanged as the spec requires. -/
theorem c2_decay_faults_when_epochs_lt_4 :
    _calculate_learning_decay 1 3 (1/10) (9/10) = none ∧
    ∀ epoch : ℕ, ∀ rate decay : ℚ, _calculate_learning_decay epoch 3 rate decay = none := by
  constructor
  · rfl
  · intro epoch rate decay
    simp [_calculate_learning_decay]

/-- C3 (counterexample): at a weight entry equal to `0` the Lasso term is
`-regularization`, not `+regularization` as the claim states — with
`regularization = 1` and `weights = [[0]]` the code returns `-1 ≠ 1`. -/
theorem c3_zero_weight_counterexample :
    _get_lasso_regularization 1 [[0]] 0 0 = -1 ∧ (-1 : ℚ) ≠ 1 := by
  constructor
  · simp [_get_lasso_regularization]
  · norm_num

/-- C3 (amended): the Lasso term at entry `(i, j)` equals `+regularization`
when `weights[i][j] > 0` and `-regularization` when `weights[i][j] ≤ 0`
(so the sign of a zero weight is treated as `-1`, not `+1`). -/
theorem c3_lasso_sign_amended (regularization : ℚ) (weights : List (List ℚ)) (i j : ℕ) :
    (0 < (weights.getD i []).getD j 0 →
      _get_lasso_regularization regularization weights i j = regularization) ∧
    ((weights.getD i []).getD j 0 ≤ 0 →
      _get_lasso_regularization regularization weights i j = -regularization) := by
  constructor
  · intro h
    rw [_get_lasso_regularization, if_pos h, mul_one]
  · intro h
    rw [_get_lasso_regularization, if_neg (by exact not_lt.2 h)]
    ring

/-- Witness for the amended C3 at positive, negative and zero weights. -/
theorem c3_lasso_sign_amended_witness :
    _get_lasso_regularization 5 [[2]] 0 0 = 5 ∧
    _get_lasso_regularization 5 [[-2]] 0 0 = -5 ∧
    _get_lasso_regularization 5 [[0]] 0 0 = -5 :=
  ⟨(c3_lasso_sign_amended 5 [[2]] 0 0).1 (by norm_num),
   (c3_lasso_sign_amended 5 [[-2]] 0 0).2 (by norm_num),
   (c3_lasso_sign_amended 5 [[0]] 0 0).2 (by norm_num)⟩

/-- C5: when `epochs ≥ 4` the decay computation never faults; it multiplies
the rate by the decay factor exactly once when `epoch` is a nonzero multiple
of `epochs // 4`, and returns the rate unchanged for every other epoch. -/
theorem c5_learning_decay_quarter_boundary (epoch epochs : ℕ) (rate decay : ℚ)
    (h : 4 ≤ epochs) :
    (epoch % (epochs / 4) = 0 ∧ epoch ≠ 0 →
      _calculate_learning_decay epoch epochs rate decay = some (rate * decay)) ∧
    (¬(epoch % (epochs / 4) = 0 ∧ epoch ≠ 0) →
      _calculate_learning_decay epoch epochs rate decay = some rate) := by
  have hq : epochs / 4 ≠ 0 := by
    have : 1 ≤ epochs / 4 := (Nat.one_le_div_iff (by norm_num)).2 h
    omega
  constructor
  · intro hcond
    simp [_calculate_learning_decay, hq, hcond]
  · intro hcond
    simp only [_calculate_learning_decay, if_neg hq]
    rw [if_neg hcond]

/-- Witness for C5 on the spec scenario: `epochs = 20`, decay boundary at
epoch `5 = 20 // 4` turns `0.1` into `0.09`; the already-decayed rate is
unchanged at epoch `6`. -/
theorem c5_learning_decay_witness :
    _calculate_learning_decay 5 20 (1/10) (9/10) = some (9/100) ∧
    _calculate_learning_decay 6 20 (9/100) (9/10) = some (9/100) := by
  constructor
  · have h := (c5_learning_decay_quarter_boundary 5 20 (1/10) (9/10) (by norm_num)).1
      (by norm_num)
    rw [h]
    norm_num
  · exact (c5_learning_decay_quarter_boundary 6 20 (9/100) (9/10) (by norm_num)).2
      (by norm_num)

lemma getD_map_row (f : List ℚ → List ℚ) (ws : List (List ℚ)) (i : ℕ) (h : i < ws.length) :
    (ws.map f).getD i [] = f (ws.getD i []) := by
  rw [List.getD_eq_getElem?_getD, List.getElem?_map, List.getElem?_eq_getElem h,
    List.getD_eq_getElem?_getD, List.getElem?_eq_getElem h]
  rfl

/-- C1 (code bug evaluation): with both regularization flags off, one call of
`update_weights` on weights `[[1]]`, input `[1]`, `gradient = 1`,
`learning_rate = 1` subtracts the raw gradient step twice: the entry becomes
`1 - 1*1*1 - 1*1*1 = -1`, not the `1 - 1*1*1 = 0` that a single application
would produce. -/
theorem c1_gradient_applied_twice :
    (update_weights ⟨[[1]], 0, [1]⟩ 1 false false 1 0).weights = [[-1]] ∧
    ([[-1]] : List (List ℚ)) ≠ [[1 - 1 * 1 * 1]] := by
  constructor
  · norm_num [update_weights, update_weights_matrix_eq, mapWithIndex, entryNew]
  · norm_num

/-- C6 (counterexample): with both flags off the final entry value is not
`w - lr * (gradient + reg_term) * input[j]`: on weights `[[2]]`, input
`[3]`, `gradient = 1`, `lr = 1` the claimed formula gives `-1` but
`update_weights` produces `-4` (the raw gradient step is applied twice). -/
theorem c6_no_reg_counterexample :
    (update_weights ⟨[[2]], 5, [3]⟩ 1 false false 1 7).weights = [[-4]] ∧
    (2 : ℚ) - 1 * (1 + 0) * 3 = -1 ∧
    ([[-4]] : List (List ℚ)) ≠ [[-1]] := by
  refine ⟨?_, by norm_num, by norm_num⟩
  norm_num [update_weights, update_weights_matrix_eq, mapWithIndex, entryNew]

/-- C6 (amended): whenever at least one regularization flag is enabled, each
weight entry `(i, j)` is updated to
`weights[i][j] - lr * (gradient + regularization_term) * input_dataset[j]`
using that entry's own column-`j` input value; and the bias is always
updated to `bias - lr * gradient` with no regularization term. -/
theorem c6_update_rule_amended (layer : Layer) (gradient : ℚ) (lasso ridge : Bool)
    (lr reg : ℚ) (h : lasso = true ∨ ridge = true) (i j : ℕ)
    (hi : i < layer.weights.length) (hj : j < (layer.weights.getD i []).length) :
    ((update_weights layer gradient lasso ridge lr reg).weights.getD i []).getD j 0 =
      (layer.weights.getD i []).getD j 0 -
        lr * (gradient +
          ((if lasso then _get_lasso_regularization reg layer.weights i j else 0) +
           (if ridge then _get_ridge_regularization reg layer.weights i j else 0))) *
          layer.input_dataset.getD j 0 ∧
    (update_weights layer gradient lasso ridge lr reg).bias = layer.bias - lr * gradient := by
  have hfalse : ¬(lasso = false ∧ ridge = false) := by
    rcases h with h | h <;> simp [h]
  constructor
  · simp only [update_weights]
    rw [update_weights_matrix_eq, getD_map_row _ _ _ hi,
      getD_mapWithIndex _ _ _ _ hj, Nat.zero_add]
    simp only [entryNew, _get_lasso_regularization, _get_ridge_regularization]
    rw [if_neg hfalse]
  · simp [update_weights]

/-- Witness for the amended C6 with ridge regularization enabled. -/
theorem c6_update_rule_amended_witness :
    ((update_weights ⟨[[2]], 5, [3]⟩ 1 false true 1 1).weights.getD 0 []).getD 0 0 = -7 ∧
    (update_weights ⟨[[2]], 5, [3]⟩ 1 false true 1 1).bias = 4 := by
  have h := c6_update_rule_amended ⟨[[2]], 5, [3]⟩ 1 false true 1 1 (Or.inr rfl) 0 0
    (by decide) (by decide)
  constructor
  · rw [h.1]
    norm_num [_get_ridge_regularization]
  · rw [h.2]
    norm_num

/-- C10: `update_weights` preserves the shape of the weight matrix — the
number of rows and the length of every row are unchanged — and leaves the
layer's `input_dataset` untouched. -/
theorem c10_update_weights_preserves_shape (layer : Layer) (gradient : ℚ)
    (lasso ridge : Bool) (lr reg : ℚ) :
    (update_weights layer gradient lasso ridge lr reg).weights.length =
      layer.weights.length ∧
    (update_weights layer gradient lasso ridge lr reg).weights.map List.length =
      layer.weights.map List.length ∧
    (update_weights layer gradient lasso ridge lr reg).input_dataset =
      layer.input_dataset := by
  refine ⟨?_, ?_, rfl⟩
  · simp [update_weights, update_weights_matrix_eq]
  · simp [update_weights, update_weights_matrix_eq, List.map_map, Function.comp_def,
      length_mapWithIndex]

/-- Parses a nonempty run of decimal digits, accumulating left to right. -/
def parseDigits : List Char → ℕ → Option ℕ
  | [], acc => some acc
  | c :: cs, acc =>
    if '0' ≤ c ∧ c ≤ '9' then parseDigits cs (acc * 10 + (c.toNat - '0'.toNat)) else none

/-- Models Python `float()` as used by `Data.get_target_value_by_key` on the
dataset's keys, which are nonnegative-integer strings (`'1'`-`'6'` in the
claim's dataset); any other string makes `float()` raise, modelled `none`. -/
def pyFloat (s : String) : Option ℚ :=
  match s.data with
  | [] => none
  | cs => (parseDigits cs 0).map (fun n => (n : ℚ))

/-- The dict comprehension of `Data.get_target_value_by_key` (data.py, lines
72-74): `{key: float(key)/10 for key in self.dataset[self.data_name]}`,
built in iteration order; `none` models `float()` raising on some key. -/
def build_target_values : List String → Option (List (String × ℚ))
  | [] => some []
  | k :: ks =>
    match pyFloat k with
    | none => none
    | some v => (build_target_values ks).map (fun rest => (k, v / 10) :: rest)

/-- From `Data.get_target_value_by_key` (data.py, lines 65-75): builds the
target-value dict over the active category's keys and returns
`target_values.get(value_by_key, 0.0)`.  A Python dict keeps the last
binding of a duplicated key, hence the `reverse` before the first-match
`lookup`. -/
def get_target_value_by_key (categoryKeys : List String) (value_by_key : String) : Option ℚ :=
  (build_target_values categoryKeys).map
    (fun target_values => (target_values.reverse.lookup value_by_key).getD 0)

/-- The active data category of the claim's scenario dataset
`{'cube': ['1', '2', '3', '4', '5', '6']}`. -/
def cubeKeys : List String := ["1", "2", "3", "4", "5", "6"]

/-- C9: with dataset `{'cube': ['1',...,'6']}`, `get_target_value_by_key`
returns `float(key)/10` for every key present in the active dataset
(`'3'` gives `0.3`, boundary key `'6'` gives `0.6`) and `0.0` for every
absent key (e.g. `'10'`). -/
theorem c9_target_value_by_key :
    (∀ k ∈ cubeKeys, get_target_value_by_key cubeKeys k =
      (pyFloat k).map (fun v => v / 10)) ∧
    (∀ k, k ∉ cubeKeys → get_target_value_by_key cubeKeys k = some 0) ∧
    get_target_value_by_key cubeKeys "3" = some (3/10) ∧
    get_target_value_by_key cubeKeys "6" = some (6/10) ∧
    get_target_value_by_key cubeKeys "10" = some 0 := by
  refine ⟨?_, ?_, rfl, rfl, rfl⟩
  · intro k hk
    fin_cases hk <;> rfl
  · intro k hk
    simp only [cubeKeys, List.mem_cons, List.mem_singleton, not_or] at hk
    obtain ⟨h1, h2, h3, h4, h5, h6⟩ := hk
    have e1 : (k == "1") = false := beq_eq_false_iff_ne.2 h1
    have e2 : (k == "2") = false := beq_eq_false_iff_ne.2 h2
    have e3 : (k == "3") = false := beq_eq_false_iff_ne.2 h3
    have e4 : (k == "4") = false := beq_eq_false_iff_ne.2 h4
    have e5 : (k == "5") = false := beq_eq_false_iff_ne.2 h5
    have e6 : (k == "6") = false := beq_eq_false_iff_ne.2 h6.1
    have hb : build_target_values cubeKeys = some
        [("1", 1/10), ("2", 2/10), ("3", 3/10), ("4", 4/10), ("5", 5/10), ("6", 6/10)] := rfl
    rw [get_target_value_by_key, hb]
    simp [List.lookup, e1, e2, e3, e4, e5, e6]

/-- Witness for C9 at the present key `'3'` and the absent key `'10'`. -/
theorem c9_target_value_by_key_witness :
    get_target_value_by_key cubeKeys "3" = (pyFloat "3").map (fun v => v / 10) ∧
    get_target_value_by_key cubeKeys "10" = some 0 :=
  ⟨c9_target_value_by_key.1 "3" (by decide),
   c9_target_value_by_key.2.1 "10" (by decide)⟩

/-- Environment and hyperparameters of `MachineLearning.train`
(machine_learning.py, lines 139-168).  `forward` stands for
`layer.get_layer_dataset()` — the layer classes live in `layers.py`, which
is outside the analysed sources, so the forward computation is kept
abstract.  `sample` stands for `self.get_data_sample()` and `target` for
`self.get_normalized_target_value(data_number)`; both are constant across
the loop because neither `self.data_number` nor `data_number` changes
inside `train`. -/
structure TrainCfg where
  forward : Layer → List ℚ
  sample : List ℚ
  target : ℚ
  learning_decay : ℚ
  error_tolerance : ℚ
  regularization : ℚ
  lasso_regularization : Bool
  ridge_regularization : Bool
  epochs : ℕ

/-- The layer state after the body of one `train` epoch: `layer.input_dataset`
is refreshed from the sample (line 158), the prediction is
`sum(layer.get_layer_dataset())` (line 159), the gradient is
`prediction - target` (line 161), and `update_weights` is applied
(lines 162-164). -/
def trainLayer2 (cfg : TrainCfg) (layer : Layer) (learning_rate : ℚ) : Layer :=
  update_weights { layer with input_dataset := cfg.sample }
    ((cfg.forward { layer with input_dataset := cfg.sample }).sum - cfg.target)
    cfg.lasso_regularization cfg.ridge_regularization learning_rate cfg.regularization

/-- The `for epoch in range(epochs)` loop of `MachineLearning.train`
(lines 157-168), recursing on the number of remaining iterations: per
epoch, refresh the input and update the weights (`trainLayer2`), run the
visualisation — whose `_calculate_error` call raises when
`epoch % 100 == 0` and the target is zero (line 135) —, apply
learning-rate decay (line 166, raising when `epochs // 4 == 0`), and
return `(layer.weights, layer.bias)` as soon as
`abs(prediction - target) < error_tolerance` (lines 167-168).  The result
carries the final layer state (the Python layer object is mutated in
place) together with the Python return value, which is `None` when the
loop exhausts all epochs; `Except.error` marks executions where Python
raises. -/
def train_go (cfg : TrainCfg) :
    ℕ → ℕ → Layer → ℚ → Except Unit (Layer × Option (List (List ℚ) × ℚ))
  | _, 0, layer, _ => .ok (layer, none)
  | epoch, remaining + 1, layer, learning_rate =>
    if epoch % 100 = 0 ∧ cfg.target = 0 then .error ()
    else
      match _calculate_learning_decay epoch cfg.epochs learning_rate cfg.learning_decay with
      | none => .error ()
      | some learning_rate1 =>
        if |(cfg.forward { layer with input_dataset := cfg.sample }).sum - cfg.target| <
            cfg.error_tolerance then
          .ok (trainLayer2 cfg layer learning_rate,
            some ((trainLayer2 cfg layer learning_rate).weights,
                  (trainLayer2 cfg layer learning_rate).bias))
        else train_go cfg (epoch + 1) remaining (trainLayer2 cfg layer learning_rate)
          learning_rate1

/-- `MachineLearning.train`: run the loop from epoch `0` for `cfg.epochs`
iterations on the given layer and initial learning rate. -/
def train (cfg : TrainCfg) (layer : Layer) (learning_rate : ℚ) :
    Except Unit (Layer × Option (List (List ℚ) × ℚ)) :=
  train_go cfg 0 cfg.epochs layer learning_rate

/-- The `(layer, learning_rate)` state at the start of epoch `k` of the
training loop; the decay `getD`-defaults to the undecayed rate on the
faulting executions, which the theorems exclude by hypothesis. -/
def trainStateAt (cfg : TrainCfg) (layer0 : Layer) (lr0 : ℚ) : ℕ → Layer × ℚ
  | 0 => (layer0, lr0)
  | k + 1 =>
    (trainLayer2 cfg (trainStateAt cfg layer0 lr0 k).1 (trainStateAt cfg layer0 lr0 k).2,
     (_calculate_learning_decay k cfg.epochs (trainStateAt cfg layer0 lr0 k).2
        cfg.learning_decay).getD (trainStateAt cfg layer0 lr0 k).2)

/-- The prediction `sum(layer.get_layer_dataset())` computed at epoch `k`. -/
def predictionAt (cfg : TrainCfg) (layer0 : Layer) (lr0 : ℚ) (k : ℕ) : ℚ :=
  (cfg.forward { (trainStateAt cfg layer0 lr0 k).1 with input_dataset := cfg.sample }).sum

/-- The early-stopping test of epoch `k`:
`abs(prediction - target) < error_tolerance`. -/
def stopsAt (cfg : TrainCfg) (layer0 : Layer) (lr0 : ℚ) (k : ℕ) : Prop :=
  |predictionAt cfg layer0 lr0 k - cfg.target| < cfg.error_tolerance

lemma decay_isSome (epoch epochs : ℕ) (lr ld : ℚ) (h4 : 4 ≤ epochs) :
    _calculate_learning_decay epoch epochs lr ld =
      some ((_calculate_learning_decay epoch epochs lr ld).getD lr) := by
  have hq : ¬ epochs / 4 = 0 := by
    have : 1 ≤ epochs / 4 := (Nat.one_le_div_iff (by norm_num)).2 h4
    omega
  by_cases hc : epoch % (epochs / 4) = 0 ∧ epoch ≠ 0
  · simp [_calculate_learning_decay, hq, hc]
  · simp [_calculate_learning_decay, hq, hc]

lemma train_go_step (cfg : TrainCfg) (layer : Layer) (lr : ℚ) (epoch r : ℕ)
    (htarget : cfg.target ≠ 0) (h4 : 4 ≤ cfg.epochs) :
    train_go cfg epoch (r + 1) layer lr =
      if |(cfg.forward { layer with input_dataset := cfg.sample }).sum - cfg.target| <
          cfg.error_tolerance then
        Except.ok (trainLayer2 cfg layer lr,
          some ((trainLayer2 cfg layer lr).weights, (trainLayer2 cfg layer lr).bias))
      else train_go cfg (epoch + 1) r (trainLayer2 cfg layer lr)
        ((_calculate_learning_decay epoch cfg.epochs lr cfg.learning_decay).getD lr) := by
  rw [train_go]
  rw [if_neg (fun h => htarget h.2)]
  rw [decay_isSome epoch cfg.epochs lr cfg.learning_decay h4]
  rfl

lemma train_go_none (cfg : TrainCfg) (layer0 : Layer) (lr0 : ℚ)
    (htarget : cfg.target ≠ 0) (h4 : 4 ≤ cfg.epochs) :
    ∀ r k, k + r = cfg.epochs →
      (∀ m, k ≤ m → m < cfg.epochs → ¬ stopsAt cfg layer0 lr0 m) →
      train_go cfg k r (trainStateAt cfg layer0 lr0 k).1 (trainStateAt cfg layer0 lr0 k).2 =
        .ok ((trainStateAt cfg layer0 lr0 cfg.epochs).1, none) := by
  intro r
  induction r with
  | zero =>
    intro k hk _
    have hke : k = cfg.epochs := by omega
    subst hke
    rfl
  | succ r ih =>
    intro k hk hno
    rw [train_go_step cfg _ _ k r htarget h4]
    have hnk := hno k le_rfl (by omega)
    simp only [stopsAt, predictionAt] at hnk
    rw [if_neg hnk]
    exact ih (k + 1) (by omega) (fun m hm1 hm2 => hno m (by omega) hm2)

lemma train_go_stop (cfg : TrainCfg) (layer0 : Layer) (lr0 : ℚ)
    (htarget : cfg.target ≠ 0) (h4 : 4 ≤ cfg.epochs) :
    ∀ r k k0, k + r = cfg.epochs → k ≤ k0 → k0 < cfg.epochs →
      stopsAt cfg layer0 lr0 k0 →
      (∀ m, k ≤ m → m < k0 → ¬ stopsAt cfg layer0 lr0 m) →
      train_go cfg k r (trainStateAt cfg layer0 lr0 k).1 (trainStateAt cfg layer0 lr0 k).2 =
        .ok ((trainStateAt cfg layer0 lr0 (k0 + 1)).1,
          some ((trainStateAt cfg layer0 lr0 (k0 + 1)).1.weights,
                (trainStateAt cfg layer0 lr0 (k0 + 1)).1.bias)) := by
  intro r
  induction r with
  | zero =>
    intro k k0 hk hkk0 hk0e _ _
    omega
  | succ r ih =>
    intro k k0 hk hkk0 hk0e hstop hmin
    rw [train_go_step cfg _ _ k r htarget h4]
    by_cases hke : k = k0
    · subst hke
      have hs := hstop
      simp only [stopsAt, predictionAt] at hs
      rw [if_pos hs]
      rfl
    · have hnk := hmin k le_rfl (by omega)
      simp only [stopsAt, predictionAt] at hnk
      rw [if_neg hnk]
      exact ih (k + 1) k0 (by omega) (by omega) hk0e hstop
        (fun m hm1 hm2 => hmin m (by omega) hm2)

/-- C4: on every non-faulting execution (nonzero target and `epochs ≥ 4`,
see C2/C7 for the faulting ones), `train` returns
`(layer.weights, layer.bias)` — the state right after that epoch's weight
update — in the first epoch whose prediction satisfies
`abs(prediction - target) < error_tolerance`; and when no epoch within
`epochs` satisfies the tolerance, the loop runs all epochs and the Python
return value is absent (`None`), so the caller cannot assume the returned
tuple is populated. -/
theorem c4_train_early_stop_or_none (cfg : TrainCfg) (layer0 : Layer) (lr0 : ℚ)
    (htarget : cfg.target ≠ 0) (h4 : 4 ≤ cfg.epochs) :
    ((∀ m < cfg.epochs, ¬ stopsAt cfg layer0 lr0 m) →
      train cfg layer0 lr0 = .ok ((trainStateAt cfg layer0 lr0 cfg.epochs).1, none)) ∧
    (∀ k < cfg.epochs, stopsAt cfg layer0 lr0 k →
      (∀ m < k, ¬ stopsAt cfg layer0 lr0 m) →
      train cfg layer0 lr0 =
        .ok ((trainStateAt cfg layer0 lr0 (k + 1)).1,
          some ((trainStateAt cfg layer0 lr0 (k + 1)).1.weights,
                (trainStateAt cfg layer0 lr0 (k + 1)).1.bias))) := by
  constructor
  · intro hno
    exact train_go_none cfg layer0 lr0 htarget h4 cfg.epochs 0 (by omega)
      (fun m _ hm2 => hno m hm2)
  · intro k hk hstop hmin
    exact train_go_stop cfg layer0 lr0 htarget h4 cfg.epochs 0 k (by omega) (by omega)
      hk hstop (fun m _ hm2 => hmin m hm2)

/-- Concrete training configuration for the C4 witness: the forward map is
constantly `[0]`, so the prediction is `0`, the target `1`, and the
tolerance `1/2` is never met. -/
def c4cfg : TrainCfg :=
  { forward := fun _ => [0], sample := [2], target := 1, learning_decay := 1/2,
    error_tolerance := 1/2, regularization := 0, lasso_regularization := false,
    ridge_regularization := false, epochs := 4 }

/-- Witness for C4: with the tolerance never met, `train` exhausts all 4
epochs and its Python return value is `None`. -/
theorem c4_train_witness :
    train c4cfg ⟨[[1]], 0, [1]⟩ 1 =
      .ok ((trainStateAt c4cfg ⟨[[1]], 0, [1]⟩ 1 c4cfg.epochs).1, none) := by
  apply (c4_train_early_stop_or_none c4cfg ⟨[[1]], 0, [1]⟩ 1
    (by norm_num [c4cfg]) (by norm_num [c4cfg])).1
  intro m _
  simp only [stopsAt, predictionAt, c4cfg]
  norm_num

/-- Environment of `MachineLearning.train_layers_on_dataset`
(machine_learning.py, lines 183-236).  `f1`/`f2`/`f3` stand for
`get_layer_dataset()` of the three layer objects (defined in `layers.py`,
outside the analysed sources).  `sample` stands for
`self.get_data_sample()`: it is the same in every iteration because the
loop increments only the local variable `data_number` (line 226), never
`self.data_number`, which `get_data_sample` reads.  `targetFn` stands for
`self.get_normalized_target_value` applied to the local `data_number`. -/
structure DatasetCfg where
  f1 : Layer → List ℚ
  f2 : Layer → List ℚ
  f3 : Layer → List ℚ
  sample : List ℚ
  targetFn : ℕ → ℚ
  epochs : ℕ
  learning_rate : ℚ
  learning_decay : ℚ
  error_tolerance : ℚ
  regularization : ℚ
  lasso_regularization : Bool
  ridge_regularization : Bool

/-- The mutable state threaded through the `train_layers_on_dataset` loop:
the local `data_number` counter and the three layer objects. -/
structure TLState where
  data_number : ℕ
  hidden_layer_first : Layer
  hidden_layer_second : Layer
  output_outer_layer : Layer
deriving DecidableEq

/-- The argument of `_save_weights_and_biases` (lines 203-204 and 228-236):
the `weights` and `biases` dicts in insertion order. -/
structure SavedParams where
  weights : List (String × List (List ℚ))
  biases : List (String × ℚ)
deriving DecidableEq

/-- The `train` configuration of the first hidden layer's training call. -/
def cfg1 (env : DatasetCfg) (data_number : ℕ) : TrainCfg :=
  ⟨env.f1, env.sample, env.targetFn data_number, env.learning_decay, env.error_tolerance,
   env.regularization, env.lasso_regularization, env.ridge_regularization, env.epochs⟩

/-- The `train` configuration of the second hidden layer's training call. -/
def cfg2 (env : DatasetCfg) (data_number : ℕ) : TrainCfg :=
  ⟨env.f2, env.sample, env.targetFn data_number, env.learning_decay, env.error_tolerance,
   env.regularization, env.lasso_regularization, env.ridge_regularization, env.epochs⟩

/-- The `train` configuration of the outer layer's training call. -/
def cfg3 (env : DatasetCfg) (data_number : ℕ) : TrainCfg :=
  ⟨env.f3, env.sample, env.targetFn data_number, env.learning_decay, env.error_tolerance,
   env.regularization, env.lasso_regularization, env.ridge_regularization, env.epochs⟩

/-- One iteration of the `train_layers_on_dataset` loop (lines 207-226):
set the first layer's input to the sample and train it; set the second
layer's input to the first layer's output and train it; set the outer
layer's input to the second layer's output and train it; then increment
the local `data_number`.  Exceptions raised inside `train` propagate. -/
def tl_step (env : DatasetCfg) (s : TLState) : Except Unit TLState :=
  match train (cfg1 env s.data_number)
      { s.hidden_layer_first with input_dataset := env.sample } env.learning_rate with
  | .error e => .error e
  | .ok r1 =>
    match train (cfg2 env s.data_number)
        { s.hidden_layer_second with input_dataset := env.f1 r1.1 } env.learning_rate with
    | .error e => .error e
    | .ok r2 =>
      match train (cfg3 env s.data_number)
          { s.output_outer_layer with input_dataset := env.f2 r2.1 } env.learning_rate with
      | .error e => .error e
      | .ok r3 => .ok ⟨s.data_number + 1, r1.1, r2.1, r3.1⟩

/-- The `for i in range(len(self.dataset[self.data_name]))` loop (line 206),
recursing on the number of remaining iterations. -/
def tl_go (env : DatasetCfg) : ℕ → TLState → Except Unit TLState
  | 0, s => .ok s
  | n + 1, s =>
    match tl_step env s with
    | .error e => .error e
    | .ok s1 => tl_go env n s1

/-- The dicts built after the loop (lines 228-234), in insertion order. -/
def savedOf (s : TLState) : SavedParams :=
  { weights := [("hidden_layer_first", s.hidden_layer_first.weights),
                ("hidden_layer_second", s.hidden_layer_second.weights),
                ("output_outer_layer", s.output_outer_layer.weights)],
    biases := [("hidden_layer_first", s.hidden_layer_first.bias),
               ("hidden_layer_second", s.hidden_layer_second.bias),
               ("output_outer_layer", s.output_outer_layer.bias)] }

/-- `MachineLearning.train_layers_on_dataset` for a dataset whose active
category `self.dataset[self.data_name]` has `n` entries: run the loop and
return the parameter set passed to `_save_weights_and_biases`. -/
def train_layers_on_dataset (env : DatasetCfg) (n : ℕ) (s : TLState) :
    Except Unit SavedParams :=
  (tl_go env n s).map savedOf

/-- Modelled from the claim's words, for comparison with the source: the
epoch body of a `train` variant that does NOT refresh
`layer.input_dataset` from the dataset sample, so that each layer is
trained on whatever input was assigned before the call. -/
def trainLayer2_claimed (cfg : TrainCfg) (layer : Layer) (learning_rate : ℚ) : Layer :=
  update_weights layer ((cfg.forward layer).sum - cfg.target)
    cfg.lasso_regularization cfg.ridge_regularization learning_rate cfg.regularization

/-- Modelled from the claim's words: the training loop built on
`trainLayer2_claimed`; identical to `train_go` except that the layer's
input buffer is left as assigned by the caller. -/
def train_go_claimed (cfg : TrainCfg) :
    ℕ → ℕ → Layer → ℚ → Except Unit (Layer × Option (List (List ℚ) × ℚ))
  | _, 0, layer, _ => .ok (layer, none)
  | epoch, remaining + 1, layer, learning_rate =>
    if epoch % 100 = 0 ∧ cfg.target = 0 then .error ()
    else
      match _calculate_learning_decay epoch cfg.epochs learning_rate cfg.learning_decay with
      | none => .error ()
      | some learning_rate1 =>
        if |(cfg.forward layer).sum - cfg.target| < cfg.error_tolerance then
          .ok (trainLayer2_claimed cfg layer learning_rate,
            some ((trainLayer2_claimed cfg layer learning_rate).weights,
                  (trainLayer2_claimed cfg layer learning_rate).bias))
        else train_go_claimed cfg (epoch + 1) remaining
          (trainLayer2_claimed cfg layer learning_rate) learning_rate1

/-- Modelled from the claim's words: `train` without the per-epoch input
refresh. -/
def train_claimed (cfg : TrainCfg) (layer : Layer) (learning_rate : ℚ) :
    Except Unit (Layer × Option (List (List ℚ) × ℚ)) :=
  train_go_claimed cfg 0 cfg.epochs layer learning_rate

/-- Modelled from the claim's words: one `train_layers_on_dataset`
iteration in which the second hidden layer really is trained on the first
hidden layer's output and the outer layer on the second's output. -/
def tl_step_claimed (env : DatasetCfg) (s : TLState) : Except Unit TLState :=
  match train_claimed (cfg1 env s.data_number)
      { s.hidden_layer_first with input_dataset := env.sample } env.learning_rate with
  | .error e => .error e
  | .ok r1 =>
    match train_claimed (cfg2 env s.data_number)
        { s.hidden_layer_second with input_dataset := env.f1 r1.1 } env.learning_rate with
    | .error e => .error e
    | .ok r2 =>
      match train_claimed (cfg3 env s.data_number)
          { s.output_outer_layer with input_dataset := env.f2 r2.1 } env.learning_rate with
      | .error e => .error e
      | .ok r3 => .ok ⟨s.data_number + 1, r1.1, r2.1, r3.1⟩

/-- Modelled from the claim's words: the outer loop over the claimed
iteration. -/
def tl_go_claimed (env : DatasetCfg) : ℕ → TLState → Except Unit TLState
  | 0, s => .ok s
  | n + 1, s =>
    match tl_step_claimed env s with
    | .error e => .error e
    | .ok s1 => tl_go_claimed env n s1

/-- Modelled from the claim's words: `train_layers_on_dataset` as the claim
describes it. -/
def train_layers_claimed (env : DatasetCfg) (n : ℕ) (s : TLState) :
    Except Unit SavedParams :=
  (tl_go_claimed env n s).map savedOf

lemma train_total (cfg : TrainCfg) (layer : Layer) (lr : ℚ)
    (htarget : cfg.target ≠ 0) (h4 : 4 ≤ cfg.epochs) :
    ∃ out, train cfg layer lr = .ok out := by
  by_cases hno : ∀ m < cfg.epochs, ¬ stopsAt cfg layer lr m
  · exact ⟨_, train_go_none cfg layer lr htarget h4 cfg.epochs 0 (by omega)
      (fun m _ hm => hno m hm)⟩
  · push_neg at hno
    classical
    have hex : ∃ j, j < cfg.epochs ∧ stopsAt cfg layer lr j := by
      obtain ⟨m, hm, hsm⟩ := hno
      exact ⟨m, hm, hsm⟩
    have hspec := Nat.find_spec hex
    refine ⟨_, train_go_stop cfg layer lr htarget h4 cfg.epochs 0 (Nat.find hex)
      (by omega) (by omega) hspec.1 hspec.2 ?_⟩
    intro j _ hj hs
    exact Nat.find_min hex hj ⟨by omega, hs⟩

lemma tl_step_total (env : DatasetCfg) (h0 : ∀ d, env.targetFn d ≠ 0)
    (h4 : 4 ≤ env.epochs) (s : TLState) :
    ∃ s1, tl_step env s = .ok s1 ∧ s1.data_number = s.data_number + 1 := by
  obtain ⟨r1, h1⟩ := train_total (cfg1 env s.data_number)
    { s.hidden_layer_first with input_dataset := env.sample } env.learning_rate
    (h0 s.data_number) h4
  obtain ⟨r2, h2⟩ := train_total (cfg2 env s.data_number)
    { s.hidden_layer_second with input_dataset := env.f1 r1.1 } env.learning_rate
    (h0 s.data_number) h4
  obtain ⟨r3, h3⟩ := train_total (cfg3 env s.data_number)
    { s.output_outer_layer with input_dataset := env.f2 r2.1 } env.learning_rate
    (h0 s.data_number) h4
  refine ⟨⟨s.data_number + 1, r1.1, r2.1, r3.1⟩, ?_, rfl⟩
  simp only [tl_step, h1, h2, h3]

lemma tl_go_total (env : DatasetCfg) (h0 : ∀ d, env.targetFn d ≠ 0)
    (h4 : 4 ≤ env.epochs) :
    ∀ (n : ℕ) (s : TLState), ∃ sf, tl_go env n s = .ok sf ∧
      sf.data_number = s.data_number + n := by
  intro n
  induction n with
  | zero => intro s; exact ⟨s, rfl, rfl⟩
  | succ n ih =>
    intro s
    obtain ⟨s1, hs1, hd1⟩ := tl_step_total env h0 h4 s
    obtain ⟨sf, hsf, hdf⟩ := ih s1
    refine ⟨sf, ?_, by omega⟩
    simp only [tl_go, hs1]
    exact hsf

/-- Concrete environment for the C8 counterexample: the first layer's
output is constantly `[5]`, the second layer's output echoes its own input
buffer, and the tolerance `100` makes every training call stop after one
epoch. -/
def c8cexenv : DatasetCfg :=
  { f1 := fun _ => [5], f2 := fun l => [l.input_dataset.getD 0 0], f3 := fun _ => [0],
    sample := [2], targetFn := fun _ => 1, epochs := 4, learning_rate := 1,
    learning_decay := 1/2, error_tolerance := 100, regularization := 0,
    lasso_regularization := false, ridge_regularization := false }

/-- Initial state for the C8 counterexample: `data_number = 1` and three
fresh `1 × 1` layers. -/
def c8cexs0 : TLState :=
  ⟨1, ⟨[[1]], 0, [1]⟩, ⟨[[1]], 0, [1]⟩, ⟨[[1]], 0, [1]⟩⟩

set_option maxHeartbeats 2000000 in
/-- C8 (counterexample): because `train` overwrites `layer.input_dataset`
with the raw dataset sample at the start of every epoch, the second hidden
layer is NOT trained on the first hidden layer's output: on a concrete
one-sample run the saved second-layer weights are `[[-3]]` (training input
was the raw sample `[2]`), while the claim's reading — training the second
layer on the first layer's output `[5]` — would give `[[-39]]`. -/
theorem c8_second_layer_input_counterexample :
    (train_layers_on_dataset c8cexenv 1 c8cexs0).map
        (fun r => r.weights.lookup "hidden_layer_second") = .ok (some [[-3]]) ∧
    (train_layers_claimed c8cexenv 1 c8cexs0).map
        (fun r => r.weights.lookup "hidden_layer_second") = .ok (some [[-39]]) ∧
    ([[-3]] : List (List ℚ)) ≠ [[-39]] := by
  refine ⟨?_, ?_, by norm_num⟩
  · norm_num [train_layers_on_dataset, tl_go, tl_step, train, train_go, trainLayer2,
      update_weights, update_weights_matrix, update_weights_entry,
      _calculate_gradient_descent, _calculate_learning_decay, savedOf, Except.map,
      cfg1, cfg2, cfg3, c8cexenv, c8cexs0, List.lookup, List.range_succ]
    rfl
  · norm_num [train_layers_claimed, tl_go_claimed, tl_step_claimed, train_claimed,
      train_go_claimed, trainLayer2_claimed, update_weights, update_weights_matrix,
      update_weights_entry, _calculate_gradient_descent, _calculate_learning_decay,
      savedOf, Except.map, cfg1, cfg2, cfg3, c8cexenv, c8cexs0, List.lookup,
      List.range_succ]
    rfl

/-- C8 (amended): on every non-faulting run (nonzero targets, `epochs ≥ 4`),
`train_layers_on_dataset` iterates exactly once per entry of the active
data category, incrementing the local `data_number` each iteration, and
after the loop saves the three layers' final weights and biases under the
keys `hidden_layer_first`, `hidden_layer_second`, `output_outer_layer` in
that order.  Within each iteration the three layers are trained in order
— first, then second (its input set to the first layer's output), then
outer (its input set to the second layer's output) — but, because `train`
overwrites `layer.input_dataset` with the raw dataset sample at the start
of every epoch, those input assignments do not affect training: whenever
`epochs ≥ 1`, `train` yields the same result however the input buffer was
set before the call. -/
theorem c8_structure_amended (env : DatasetCfg) (h0 : ∀ d, env.targetFn d ≠ 0)
    (h4 : 4 ≤ env.epochs) (n : ℕ) (s : TLState) :
    (∃ sfinal : TLState,
      tl_go env n s = .ok sfinal ∧
      sfinal.data_number = s.data_number + n ∧
      train_layers_on_dataset env n s = .ok (savedOf sfinal) ∧
      (savedOf sfinal).weights =
        [("hidden_layer_first", sfinal.hidden_layer_first.weights),
         ("hidden_layer_second", sfinal.hidden_layer_second.weights),
         ("output_outer_layer", sfinal.output_outer_layer.weights)] ∧
      (savedOf sfinal).biases =
        [("hidden_layer_first", sfinal.hidden_layer_first.bias),
         ("hidden_layer_second", sfinal.hidden_layer_second.bias),
         ("output_outer_layer", sfinal.output_outer_layer.bias)]) ∧
    (∀ (cfg : TrainCfg) (layer : Layer) (x : List ℚ) (lr : ℚ), 1 ≤ cfg.epochs →
      train cfg { layer with input_dataset := x } lr =
        train cfg { layer with input_dataset := cfg.sample } lr) := by
  constructor
  · obtain ⟨sf, h, hd⟩ := tl_go_total env h0 h4 n s
    refine ⟨sf, h, hd, ?_, rfl, rfl⟩
    rw [train_layers_on_dataset, h]
    rfl
  · intro cfg layer x lr h1
    obtain ⟨r, hr⟩ : ∃ r, cfg.epochs = r + 1 := ⟨cfg.epochs - 1, by omega⟩
    rw [train, train, hr]
    rfl

/-- Witness for the amended C8: two loop iterations on a concrete
environment complete without faulting, advance `data_number` from 1 to 3,
and save the three layers under the three fixed keys. -/
theorem c8_structure_amended_witness :
    (∃ sfinal : TLState,
      tl_go c8cexenv 2 c8cexs0 = .ok sfinal ∧
      sfinal.data_number = c8cexs0.data_number + 2 ∧
      train_layers_on_dataset c8cexenv 2 c8cexs0 = .ok (savedOf sfinal) ∧
      (savedOf sfinal).weights =
        [("hidden_layer_first", sfinal.hidden_layer_first.weights),
         ("hidden_layer_second", sfinal.hidden_layer_second.weights),
         ("output_outer_layer", sfinal.output_outer_layer.weights)] ∧
      (savedOf sfinal).biases =
        [("hidden_layer_first", sfinal.hidden_layer_first.bias),
         ("hidden_layer_second", sfinal.hidden_layer_second.bias),
         ("output_outer_layer", sfinal.output_outer_layer.bias)]) ∧
    (∀ (cfg : TrainCfg) (layer : Layer) (x : List ℚ) (lr : ℚ), 1 ≤ cfg.epochs →
      train cfg { layer with input_dataset := x } lr =
        train cfg { layer with input_dataset := cfg.sample } lr) :=
  c8_structure_amended c8cexenv (fun d => by norm_num [c8cexenv])
    (by norm_num [c8cexenv]) 2 c8cexs0

end NeuralNetwork
